import Mathlib

/-!
Verification of the access-control and invitation subsystem of the
recipe-management application.

The definitions below are a shallow embedding of the TypeScript source:
  * `checkBookAccess`, `requireBookAccess`, `requireRecipeAccess` from the
    authorization helper module,
  * the `PATCH /api/invitations/[id]` handler (accept / decline / revoke),
  * the `POST /api/invitations` handler (create),
  * the `GET /api/recipes/[id]` handler.

The persistence layer (Supabase) is modelled as an explicit record `DB` of
table contents plus per-table fault flags.  A query ending in `.single()`
returns its row only when the filter matches exactly one row; zero or more
than one matching row produces an error value, which the handlers observe
exactly as the source observes `{ data, error }`.  Time is modelled as a
natural number of milliseconds.
-/

namespace RecipeApp

/-- Permission level of a book membership, `BookMember.permission` in the source. -/
inductive Perm where
  | READ
  | WRITE
deriving Repr, DecidableEq

/-- Status of a book invitation, `BookInvitation.status` in the source. -/
inductive InvStatus where
  | PENDING
  | ACCEPTED
  | DECLINED
  | REVOKED
deriving Repr, DecidableEq

/-- A `BookMember` row: one user's standing access to one book. -/
structure Membership where
  bookId : String
  userId : String
  permission : Perm
deriving Repr, DecidableEq

/-- A `BookInvitation` row.  `expiresAt` is nullable in the source
(the PATCH handler guards `invitation.expiresAt && ...`), hence `Option`. -/
structure Invitation where
  id : String
  bookId : String
  invitedById : String
  invitedUserEmail : String
  permission : Perm
  status : InvStatus
  invitedUserId : Option String
  expiresAt : Option Nat
deriving Repr, DecidableEq

/-- The part of a `Recipe` row the access checks consult: its owning book. -/
structure Recipe where
  id : String
  bookId : String
deriving Repr, DecidableEq

/-- The store: table contents plus fault flags.  A `true` fault flag makes
every query (respectively write) on that table return a storage error,
modelling the `error` channel of the data-access client. -/
structure DB where
  invitations : List Invitation
  members : List Membership
  recipes : List Recipe
  memberFault : Bool := false
  recipeFault : Bool := false
  invFault : Bool := false
  memberWriteFault : Bool := false
  invWriteFault : Bool := false
deriving Repr, DecidableEq

/-- Result of a `.single()` query: the row, a no-row / multi-row error, or a
storage-layer error.  The source only ever distinguishes `error || !data`
from success, but the cause is kept separate so that storage faults can be
reasoned about on their own. -/
inductive LookupResult (α : Type) where
  | found (a : α)
  | missing
  | storageError
deriving Repr, DecidableEq

/-- Semantics of `.select(...).eq(...)....single()`: exactly one matching row
is returned; zero or several matching rows yield an error. -/
def singleRow {α : Type} (l : List α) (p : α → Bool) : LookupResult α :=
  match l.filter p with
  | [a] => LookupResult.found a
  | _ => LookupResult.missing

/-- The current actor as supplied by the session collaborator. -/
structure SessionUser where
  userId : String
  email : String
deriving Repr, DecidableEq

/-- Lookup of `BookMember` by `(bookId, userId)`, as issued by `checkBookAccess`. -/
def memberLookup (db : DB) (bookId userId : String) : LookupResult Membership :=
  if db.memberFault then LookupResult.storageError
  else singleRow db.members (fun m => decide (m.bookId = bookId ∧ m.userId = userId))

/-- Lookup of `Recipe` by id, as issued by `requireRecipeAccess` and the
recipe route handlers. -/
def recipeLookup (db : DB) (recipeId : String) : LookupResult Recipe :=
  if db.recipeFault then LookupResult.storageError
  else singleRow db.recipes (fun r => decide (r.id = recipeId))

/-- Lookup of `BookInvitation` by id, as issued by the PATCH handler. -/
def invLookup (db : DB) (invId : String) : LookupResult Invitation :=
  if db.invFault then LookupResult.storageError
  else singleRow db.invitations (fun i => decide (i.id = invId))

/-- Result of `checkBookAccess`: `{ hasAccess, permission? }`. -/
structure BookAccess where
  hasAccess : Bool
  permission : Option Perm
deriving Repr, DecidableEq

/-- `checkBookAccess` from the authorization helpers: a single membership
lookup; any error or absent row yields `hasAccess = false`. -/
def checkBookAccess (db : DB) (bookId userId : String) : BookAccess :=
  match memberLookup db bookId userId with
  | LookupResult.found m => { hasAccess := true, permission := some m.permission }
  | _ => { hasAccess := false, permission := none }

/-- Structured authorization result returned by `requireBookAccess` and
`requireRecipeAccess`: `{ success: true }` or `{ success: false, error, status }`. -/
inductive AuthResult where
  | success
  | failure (error : String) (status : Nat)
deriving Repr, DecidableEq

/-- `requireBookAccess` from the authorization helpers. -/
def requireBookAccess (db : DB) (bookId userId : String) (permission : Perm) : AuthResult :=
  let bookAccess := checkBookAccess db bookId userId
  if !bookAccess.hasAccess then
    AuthResult.failure "You don\x27t have access to this recipe book" 403
  else if permission = Perm.WRITE ∧ bookAccess.permission = some Perm.READ then
    AuthResult.failure "You don\x27t have write access to this recipe book" 403
  else AuthResult.success

/-- `requireRecipeAccess` from the authorization helpers: resolve the
recipe's book, then check the caller's membership on that book. -/
def requireRecipeAccess (db : DB) (recipeId userId : String) (permission : Perm) : AuthResult :=
  match recipeLookup db recipeId with
  | LookupResult.found recipe =>
      let bookAccess := checkBookAccess db recipe.bookId userId
      if !bookAccess.hasAccess then
        AuthResult.failure "You don\x27t have access to this recipe" 403
      else if permission = Perm.WRITE ∧ bookAccess.permission = some Perm.READ then
        AuthResult.failure "You don\x27t have write access to this recipe" 403
      else AuthResult.success
  | _ => AuthResult.failure "Recipe not found" 404

/-- Responses produced by the route handlers, reduced to the parts the
claims speak about: the JSON payload kind and the HTTP status. -/
inductive Response where
  | okInv (inv : Invitation)
  | okRecipe (recipeId : String)
  | okCreated (inv : Invitation)
  | errorRes (msg : String) (status : Nat)
deriving Repr, DecidableEq

/-- The `GET /api/recipes/[id]` handler: fetch the recipe, then the caller's
membership on its book; either lookup failing yields the same 404. -/
def recipeGET (db : DB) (sessionUserId recipeId : String) : Response :=
  match recipeLookup db recipeId with
  | LookupResult.found recipe =>
      match memberLookup db recipe.bookId sessionUserId with
      | LookupResult.found _ => Response.okRecipe recipe.id
      | _ => Response.errorRes "Recipe not found" 404
  | _ => Response.errorRes "Recipe not found" 404

/-- The action carried by a PATCH request body, `z.enum(["accept", "decline", "revoke"])`. -/
inductive InvAction where
  | accept
  | decline
  | revoke
deriving Repr, DecidableEq

/-- The actor check of the PATCH handler: for `revoke` only the inviter
(`InvitedBy.id`, the user joined via `invitedById`) may act; for
`accept` / `decline` only the email-matched invitee may act. -/
def actorDenied (invitation : Invitation) (s : SessionUser) (action : InvAction) : Bool :=
  if action = InvAction.revoke then decide (invitation.invitedById ≠ s.userId)
  else decide (invitation.invitedUserEmail ≠ s.email)

/-- The PATCH handler's read-time expiry check:
`invitation.expiresAt && new Date(invitation.expiresAt) < new Date()`. -/
def isExpired (invitation : Invitation) (now : Nat) : Bool :=
  match invitation.expiresAt with
  | some t => decide (t < now)
  | none => false

/-- Effect of `.update(payload).eq('id', invId)` on the invitation table:
every row with the given id receives the payload. -/
def updateInv (invs : List Invitation) (invId : String) (f : Invitation → Invitation) :
    List Invitation :=
  invs.map fun i => if i.id = invId then f i else i

/-- `.update(payload).eq('id', invId).select().single()`: on success returns
the updated row together with the updated table; a write fault or a filter
not matching exactly one row is the `updateError` channel of the source. -/
def updateInvitationRow (db : DB) (invId : String) (f : Invitation → Invitation) :
    LookupResult (Invitation × DB) :=
  if db.invWriteFault then LookupResult.storageError
  else
    match singleRow db.invitations (fun i => decide (i.id = invId)) with
    | LookupResult.found i =>
        LookupResult.found (f i, { db with invitations := updateInv db.invitations invId f })
    | _ => LookupResult.missing

/-- `.insert({...})` into `BookMember`: appends the row unless the write
faults (the source checks only `membershipError`). -/
def insertMember (db : DB) (m : Membership) : Option DB :=
  if db.memberWriteFault then none
  else some { db with invitations := db.invitations, members := db.members ++ [m] }

/-- The update payload of the accept branch:
`{ status: "ACCEPTED", invitedUserId: session.user.id }`. -/
def acceptPayload (s : SessionUser) (i : Invitation) : Invitation :=
  { i with status := InvStatus.ACCEPTED, invitedUserId := some s.userId }

/-- The write section of the PATCH handler's `accept` branch, exactly as
sequenced in the source: first the invitation row is set to ACCEPTED with
`invitedUserId` linked to the actor, then a `BookMember` row is inserted
using the `bookId` and `permission` of the invitation as read earlier.
A failed membership insert returns 500 with the invitation update already
applied. -/
def acceptWrite (db : DB) (s : SessionUser) (invId : String) (invitation : Invitation) :
    Response × DB :=
  match updateInvitationRow db invId (acceptPayload s) with
  | LookupResult.found (updated, db1) =>
      match insertMember db1
          { bookId := invitation.bookId, userId := s.userId,
            permission := invitation.permission } with
      | some db2 => (Response.okInv updated, db2)
      | none => (Response.errorRes "Failed to create book access" 500, db1)
  | _ => (Response.errorRes "Failed to accept invitation" 500, db)

/-- The update payload of the decline branch: `{ status: "DECLINED" }`. -/
def declinePayload (i : Invitation) : Invitation :=
  { i with status := InvStatus.DECLINED }

/-- The update payload of the revoke branch: `{ status: "REVOKED" }`. -/
def revokePayload (i : Invitation) : Invitation :=
  { i with status := InvStatus.REVOKED }

/-- The write section of the PATCH handler's `decline` branch. -/
def declineWrite (db : DB) (invId : String) : Response × DB :=
  match updateInvitationRow db invId declinePayload with
  | LookupResult.found (updated, db1) => (Response.okInv updated, db1)
  | _ => (Response.errorRes "Failed to decline invitation" 500, db)

/-- The write section of the PATCH handler's `revoke` branch. -/
def revokeWrite (db : DB) (invId : String) : Response × DB :=
  match updateInvitationRow db invId revokePayload with
  | LookupResult.found (updated, db1) => (Response.okInv updated, db1)
  | _ => (Response.errorRes "Failed to revoke invitation" 500, db)

/-- The `PATCH /api/invitations/[id]` handler (accept / decline / revoke),
after session resolution: fetch the invitation, check the actor, check
PENDING, check expiry, then perform the action's writes. -/
def invitationPATCH (db : DB) (s : SessionUser) (invId : String) (action : InvAction)
    (now : Nat) : Response × DB :=
  match invLookup db invId with
  | LookupResult.found invitation =>
      if actorDenied invitation s action then
        (Response.errorRes "Unauthorized" 403, db)
      else if invitation.status ≠ InvStatus.PENDING then
        (Response.errorRes "Invitation is no longer pending" 400, db)
      else if isExpired invitation now then
        (Response.errorRes "Invitation has expired" 400, db)
      else
        match action with
        | InvAction.accept => acceptWrite db s invId invitation
        | InvAction.decline => declineWrite db invId
        | InvAction.revoke => revokeWrite db invId
  | _ => (Response.errorRes "Invitation not found" 404, db)

/-- Modelled from the spec: the `BookInvitation` table DDL is absent from the
source tree, so the value of the `status` column on insert — which the POST
handler's insert payload omits — is taken from the spec ("created PENDING",
"Sets `expiresAt = now + 7 days`, `status = PENDING`").  Every other field
is exactly the insert payload of the POST handler. -/
def newInvitationRow (newId bookId invitedById invitedUserEmail : String) (permission : Perm)
    (now : Nat) : Invitation :=
  { id := newId, bookId := bookId, invitedById := invitedById,
    invitedUserEmail := invitedUserEmail, permission := permission,
    status := InvStatus.PENDING, invitedUserId := none,
    expiresAt := some (now + 7 * 24 * 60 * 60 * 1000) }

/-- The duplicate check's filter in the POST handler:
`(bookId, invitedUserEmail)` with status PENDING. -/
def pendingDup (bookId email : String) (i : Invitation) : Bool :=
  decide (i.bookId = bookId ∧ i.invitedUserEmail = email ∧ i.status = InvStatus.PENDING)

/-- The `POST /api/invitations` handler (create), after session resolution:
resolve the inviter's default book (first WRITE membership), reject if a
PENDING invitation for `(bookId, invitedUserEmail)` already exists, then
insert the new PENDING invitation.  Note: the duplicate check's query error
is ignored by the source (only `data` is destructured), so a faulted
invitation read behaves like "no existing invitation". -/
def invitationsPOST (db : DB) (s : SessionUser) (invitedUserEmail : String) (permission : Perm)
    (now : Nat) (newId : String) : Response × DB :=
  if db.memberFault then
    (Response.errorRes "You don\x27t have a recipe book to invite users to" 403, db)
  else
    match db.members.find? (fun m => decide (m.userId = s.userId ∧ m.permission = Perm.WRITE)) with
    | none => (Response.errorRes "You don\x27t have a recipe book to invite users to" 403, db)
    | some userBook =>
        let existing :=
          if db.invFault then LookupResult.missing
          else singleRow db.invitations (pendingDup userBook.bookId invitedUserEmail)
        match existing with
        | LookupResult.found _ =>
            (Response.errorRes "Invitation already sent to this user" 400, db)
        | _ =>
            if db.invWriteFault then
              (Response.errorRes "Failed to create invitation" 500, db)
            else
              let inv := newInvitationRow newId userBook.bookId s.userId invitedUserEmail
                permission now
              (Response.okCreated inv, { db with invitations := db.invitations ++ [inv] })

/-! ### General lemmas about the store model -/

/-- A `.single()` query returns a row exactly when the filter matches that
row and nothing else. -/
theorem singleRow_found_iff {α : Type} (l : List α) (p : α → Bool) (a : α) :
    singleRow l p = LookupResult.found a ↔ l.filter p = [a] := by
  unfold singleRow
  cases hf : l.filter p with
  | nil => simp
  | cons b t =>
    cases t with
    | nil => simp
    | cons c u => simp

/-- Updating by id rewrites exactly the rows the id-filter selects, provided
the payload does not change the id. -/
theorem filter_updateInv (invs : List Invitation) (invId : String)
    (f : Invitation → Invitation) (hid : ∀ i, (f i).id = i.id) :
    (updateInv invs invId f).filter (fun i => decide (i.id = invId)) =
      (invs.filter (fun i => decide (i.id = invId))).map f := by
  induction invs with
  | nil => rfl
  | cons a t ih =>
    by_cases h : a.id = invId
    · simp only [updateInv, List.map_cons, if_pos h, List.filter_cons] at *
      rw [ih]
      simp [hid, h]
    · simp only [updateInv, List.map_cons, if_neg h, List.filter_cons] at *
      rw [ih]
      simp [h]

/-- Appending a matching row to a list the filter rejects makes `.single()`
return exactly that row. -/
theorem singleRow_append_right {α : Type} (l : List α) (p : α → Bool) (a : α)
    (hl : l.filter p = []) (ha : p a = true) :
    singleRow (l ++ [a]) p = LookupResult.found a := by
  unfold singleRow
  rw [List.filter_append, hl, List.nil_append]
  simp [List.filter_cons, ha]

/-! ### Concrete fixtures -/

def bobU : SessionUser := { userId := "bob", email := "bob@example.com" }

def aliceU : SessionUser := { userId := "alice", email := "alice@example.com" }

def c1inv : Invitation :=
  { id := "inv1", bookId := "b1", invitedById := "alice",
    invitedUserEmail := "bob@example.com", permission := Perm.READ,
    status := InvStatus.PENDING, invitedUserId := none, expiresAt := some 100 }

def c1db : DB :=
  { invitations := [c1inv], members := [], recipes := [], memberWriteFault := true }

def c1dbAfter : DB :=
  { invitations := [{ c1inv with status := InvStatus.ACCEPTED, invitedUserId := some "bob" }],
    members := [], recipes := [], memberWriteFault := true }

/-! ### Claims -/

/-- C1: the accept branch does NOT treat the invitation-status write and the
membership write as a single logical unit.  With the membership write
failing, accept first sets the stored invitation to ACCEPTED, then returns a
500 — leaving the invitation ACCEPTED with no `BookMember` row; a retry of
the membership step is impossible because the invitation is no longer
PENDING.  This theorem evaluates the handler at that failing input. -/
theorem c1_accept_membership_write_failure :
    invitationPATCH c1db bobU "inv1" InvAction.accept 50 =
      (Response.errorRes "Failed to create book access" 500, c1dbAfter)
  ∧ invLookup c1dbAfter "inv1" =
      LookupResult.found { c1inv with status := InvStatus.ACCEPTED, invitedUserId := some "bob" }
  ∧ c1dbAfter.members = []
  ∧ invitationPATCH c1dbAfter bobU "inv1" InvAction.accept 50 =
      (Response.errorRes "Invitation is no longer pending" 400, c1dbAfter) := by
  refine ⟨by decide, by decide, rfl, by decide⟩

/-- C2: the access decision is exactly the membership-lookup rule.  With no
membership row for `(bookId, userId)` — in particular, whatever memberships
the user holds on other books — `checkBookAccess` returns `hasAccess = false`
and `requireBookAccess` denies every required level; with a membership, a
WRITE requirement is satisfied exactly by a WRITE membership and a READ
requirement by either level. -/
theorem c2_access_decision (db : DB) (b u : String) (hf : db.memberFault = false) :
    ((∀ m ∈ db.members, ¬(m.bookId = b ∧ m.userId = u)) →
       checkBookAccess db b u = { hasAccess := false, permission := none }
       ∧ ∀ req : Perm, requireBookAccess db b u req =
           AuthResult.failure "You don\x27t have access to this recipe book" 403)
  ∧ (∀ m, memberLookup db b u = LookupResult.found m →
       (requireBookAccess db b u Perm.WRITE = AuthResult.success ↔ m.permission = Perm.WRITE)
       ∧ requireBookAccess db b u Perm.READ = AuthResult.success) := by
  constructor
  · intro h
    have hfil : db.members.filter (fun m => decide (m.bookId = b) && decide (m.userId = u)) = [] :=
      List.filter_eq_nil_iff.mpr (by intro a ha; simpa using h a ha)
    have hml : memberLookup db b u = LookupResult.missing := by
      simp [memberLookup, hf, singleRow, hfil]
    constructor
    · simp [checkBookAccess, hml]
    · intro req
      simp [requireBookAccess, checkBookAccess, hml]
  · intro m hm
    have hcb : checkBookAccess db b u = { hasAccess := true, permission := some m.permission } := by
      simp [checkBookAccess, hm]
    refine ⟨?_, ?_⟩
    · cases hperm : m.permission with
      | READ => simp [requireBookAccess, hcb, hperm]
      | WRITE => simp [requireBookAccess, hcb, hperm]
    · simp [requireBookAccess, hcb]

def c2memR : Membership := { bookId := "b1", userId := "u1", permission := Perm.READ }

def c2dbRead : DB := { invitations := [], members := [c2memR], recipes := [] }

def c2dbOther : DB :=
  { invitations := [],
    members := [{ bookId := "b2", userId := "u1", permission := Perm.WRITE }], recipes := [] }

/-- Witness for C2: a user whose only membership is WRITE on book `b2` has no
access at all on book `b1`; a READ member of `b1` passes a READ requirement
and fails a WRITE requirement. -/
theorem c2_access_decision_witness :
    checkBookAccess c2dbOther "b1" "u1" = { hasAccess := false, permission := none }
  ∧ requireBookAccess c2dbOther "b1" "u1" Perm.WRITE =
      AuthResult.failure "You don\x27t have access to this recipe book" 403
  ∧ requireBookAccess c2dbRead "b1" "u1" Perm.READ = AuthResult.success
  ∧ requireBookAccess c2dbRead "b1" "u1" Perm.WRITE ≠ AuthResult.success := by
  have hO := c2_access_decision c2dbOther "b1" "u1" rfl
  have hR := c2_access_decision c2dbRead "b1" "u1" rfl
  have hOn := hO.1 (by decide)
  have hRm := hR.2 c2memR (by decide)
  refine ⟨hOn.1, hOn.2 Perm.WRITE, hRm.2, fun hs => ?_⟩
  have : c2memR.permission = Perm.WRITE := hRm.1.mp hs
  exact absurd this (by decide)

def c3dbErr : DB :=
  { invitations := [],
    members := [{ bookId := "b1", userId := "u1", permission := Perm.WRITE }],
    recipes := [], memberFault := true }

def c3dbNone : DB := { invitations := [], members := [], recipes := [] }

/-- C3 counterexample: a storage error is NOT propagated upward unmodified.
With the membership store erring — even while a WRITE membership row exists —
`checkBookAccess` and `requireBookAccess` return values identical to those of
a store holding no membership at all: the error is collapsed into the
generic `hasAccess = false` / 403 no-access denial, so no distinct
`StorageFailure` reaches the caller. -/
theorem c3_storage_error_collapsed :
    checkBookAccess c3dbErr "b1" "u1" = checkBookAccess c3dbNone "b1" "u1"
  ∧ (checkBookAccess c3dbErr "b1" "u1").hasAccess = false
  ∧ requireBookAccess c3dbErr "b1" "u1" Perm.READ =
      requireBookAccess c3dbNone "b1" "u1" Perm.READ
  ∧ requireBookAccess c3dbErr "b1" "u1" Perm.READ =
      AuthResult.failure "You don\x27t have access to this recipe book" 403 := by
  refine ⟨by decide, by decide, by decide, by decide⟩

/-- C3 amended: fail-closed holds.  Whenever the membership store errors,
`checkBookAccess` reports no access and `requireBookAccess` denies with the
generic 403, and `requireRecipeAccess` never succeeds; whenever the recipe
store errors, `requireRecipeAccess` returns the 404 not-found denial.  A
storage error is thus always treated as access denied and never as granted —
but it is collapsed into the ordinary denial values rather than surfaced as
a distinct failure. -/
theorem c3_fail_closed (db : DB) (b u rid : String) (perm : Perm) :
    (db.memberFault = true →
       checkBookAccess db b u = { hasAccess := false, permission := none }
       ∧ requireBookAccess db b u perm =
           AuthResult.failure "You don\x27t have access to this recipe book" 403
       ∧ requireRecipeAccess db rid u perm ≠ AuthResult.success)
  ∧ (db.recipeFault = true →
       requireRecipeAccess db rid u perm = AuthResult.failure "Recipe not found" 404) := by
  constructor
  · intro hm
    have hml : ∀ b2 : String, memberLookup db b2 u = LookupResult.storageError := by
      intro b2; simp [memberLookup, hm]
    have hcb : ∀ b2 : String,
        checkBookAccess db b2 u = { hasAccess := false, permission := none } := by
      intro b2; simp [checkBookAccess, hml]
    refine ⟨hcb b, ?_, ?_⟩
    · simp [requireBookAccess, hcb]
    · cases hrl : recipeLookup db rid with
      | found r => simp [requireRecipeAccess, hrl, hcb]
      | missing => simp [requireRecipeAccess, hrl]
      | storageError => simp [requireRecipeAccess, hrl]
  · intro hr
    have : recipeLookup db rid = LookupResult.storageError := by
      simp [recipeLookup, hr]
    simp [requireRecipeAccess, this]

/-- Witness for C3 amended: instantiated at a store whose membership table
errors while holding a WRITE membership, and at a store whose recipe table
errors. -/
theorem c3_fail_closed_witness :
    checkBookAccess c3dbErr "b1" "u1" = { hasAccess := false, permission := none }
  ∧ requireRecipeAccess c3dbErr "r1" "u1" Perm.READ ≠ AuthResult.success
  ∧ requireRecipeAccess { c3dbNone with recipeFault := true } "r1" "u1" Perm.READ =
      AuthResult.failure "Recipe not found" 404 := by
  have hE := c3_fail_closed c3dbErr "b1" "u1" "r1" Perm.READ
  have hR := c3_fail_closed { c3dbNone with recipeFault := true } "b1" "u1" "r1" Perm.READ
  exact ⟨(hE.1 rfl).1, (hE.1 rfl).2.2, hR.2 rfl⟩

/-- C4 amended: accept success postcondition, restricted to an acting user
with no prior membership on the book (see the counterexample for why the
restriction is necessary).  For a PENDING invitation whose expiry is
strictly in the future and whose `invitedUserEmail` matches the acting
user's email — with both writes succeeding and the acting user holding no
prior membership on the book — accept stores the invitation as ACCEPTED
with `invitedUserId` set to the acting user, inserts
`Membership(bookId, actingUserId, invitation.permission)`, and afterwards
the acting user's access to the book is exactly that permission level. -/
theorem c4_accept_success (db : DB) (s : SessionUser) (invId : String) (now : Nat)
    (inv : Invitation) (t : Nat)
    (hl : invLookup db invId = LookupResult.found inv)
    (he : inv.invitedUserEmail = s.email)
    (hp : inv.status = InvStatus.PENDING)
    (hx : inv.expiresAt = some t)
    (hfut : now < t)
    (hw : db.invWriteFault = false)
    (hmw : db.memberWriteFault = false)
    (hmf : db.memberFault = false)
    (hnom : ∀ m ∈ db.members, ¬(m.bookId = inv.bookId ∧ m.userId = s.userId)) :
    invitationPATCH db s invId InvAction.accept now =
      (Response.okInv (acceptPayload s inv),
       { db with
           invitations := updateInv db.invitations invId (acceptPayload s),
           members := db.members ++
             [{ bookId := inv.bookId, userId := s.userId, permission := inv.permission }] })
  ∧ invLookup (invitationPATCH db s invId InvAction.accept now).2 invId =
      LookupResult.found (acceptPayload s inv)
  ∧ (acceptPayload s inv).status = InvStatus.ACCEPTED
  ∧ (acceptPayload s inv).invitedUserId = some s.userId
  ∧ checkBookAccess (invitationPATCH db s invId InvAction.accept now).2 inv.bookId s.userId =
      { hasAccess := true, permission := some inv.permission } := by
  have hif : db.invFault = false := by
    cases hfb : db.invFault with
    | false => rfl
    | true => simp [invLookup, hfb] at hl
  have hsr : singleRow db.invitations (fun i => decide (i.id = invId)) =
      LookupResult.found inv := by
    simpa [invLookup, hif] using hl
  have hfil : db.invitations.filter (fun i => decide (i.id = invId)) = [inv] :=
    (singleRow_found_iff _ _ _).mp hsr
  have hnotexp : isExpired inv now = false := by
    simp [isExpired, hx]; omega
  have hmain : invitationPATCH db s invId InvAction.accept now = acceptWrite db s invId inv := by
    simp [invitationPATCH, hl, actorDenied, he, hp, hnotexp]
  have hwrite : acceptWrite db s invId inv =
      (Response.okInv (acceptPayload s inv),
       { db with
           invitations := updateInv db.invitations invId (acceptPayload s),
           members := db.members ++
             [{ bookId := inv.bookId, userId := s.userId, permission := inv.permission }] }) := by
    simp [acceptWrite, updateInvitationRow, hw, hsr, insertMember, hmw]
  have hres := hmain.trans hwrite
  have hfil2 : (updateInv db.invitations invId (acceptPayload s)).filter
      (fun i => decide (i.id = invId)) = [acceptPayload s inv] := by
    rw [filter_updateInv db.invitations invId (acceptPayload s) (fun i => rfl), hfil]
    rfl
  have hmfil : db.members.filter
      (fun m => decide (m.bookId = inv.bookId) && decide (m.userId = s.userId)) = [] :=
    List.filter_eq_nil_iff.mpr (by intro a ha; simpa using hnom a ha)
  refine ⟨hres, ?_, rfl, rfl, ?_⟩
  · rw [hres]
    simp [invLookup, hif, singleRow, hfil2]
  · rw [hres]
    have hsm := singleRow_append_right db.members
      (fun m => decide (m.bookId = inv.bookId) && decide (m.userId = s.userId))
      ⟨inv.bookId, s.userId, inv.permission⟩ hmfil (by simp)
    simp [checkBookAccess, memberLookup, hmf, hsm]

def c4inv : Invitation :=
  { id := "i4", bookId := "b4", invitedById := "alice",
    invitedUserEmail := "bob@example.com", permission := Perm.READ,
    status := InvStatus.PENDING, invitedUserId := none, expiresAt := some 100 }

def c4db : DB := { invitations := [c4inv], members := [], recipes := [] }

/-- Witness for C4: Bob accepts a READ invitation to book `b4`; the stored
invitation becomes ACCEPTED and linked to Bob, a READ membership for Bob on
`b4` exists, and Bob's access to `b4` is exactly READ. -/
theorem c4_accept_success_witness :
    invLookup (invitationPATCH c4db bobU "i4" InvAction.accept 50).2 "i4" =
      LookupResult.found (acceptPayload bobU c4inv)
  ∧ checkBookAccess (invitationPATCH c4db bobU "i4" InvAction.accept 50).2 "b4" "bob" =
      { hasAccess := true, permission := some Perm.READ } := by
  have h := c4_accept_success c4db bobU "i4" 50 c4inv 100 (by decide) rfl rfl rfl
    (by omega) rfl rfl rfl (by intro m hm; simp [c4db] at hm)
  exact ⟨h.2.1, h.2.2.2.2⟩

def c4memW : Membership := { bookId := "b4", userId := "bob", permission := Perm.WRITE }

def c4dbDup : DB := { invitations := [c4inv], members := [c4memW], recipes := [] }

/-- C4 counterexample: the success postcondition fails inside the claim's
own quantifier when the acting user already holds a membership on the book.
Invitation `i4` is PENDING with future expiry and an email match, and both
writes succeed at the storage level; but because the code inserts the
`BookMember` row rather than upserting, Bob — who already has WRITE on `b4`
— ends up with two `(b4, bob)` rows, the `.single()` membership lookup
errors, and his access afterwards is `hasAccess = false`: not the
invitation's READ permission. -/
theorem c4_preexisting_membership_breaks_postcondition :
    c4inv.status = InvStatus.PENDING
  ∧ c4inv.expiresAt = some 100
  ∧ c4inv.invitedUserEmail = bobU.email
  ∧ (invitationPATCH c4dbDup bobU "i4" InvAction.accept 50).1 =
      Response.okInv (acceptPayload bobU c4inv)
  ∧ (invitationPATCH c4dbDup bobU "i4" InvAction.accept 50).2.members =
      [c4memW, { bookId := "b4", userId := "bob", permission := Perm.READ }]
  ∧ checkBookAccess (invitationPATCH c4dbDup bobU "i4" InvAction.accept 50).2 "b4" "bob" =
      { hasAccess := false, permission := none }
  ∧ checkBookAccess (invitationPATCH c4dbDup bobU "i4" InvAction.accept 50).2 "b4" "bob" ≠
      { hasAccess := true, permission := some c4inv.permission } := by
  refine ⟨rfl, rfl, rfl, by decide, by decide, by decide, by decide⟩

def c5inv : Invitation :=
  { id := "i5", bookId := "b5", invitedById := "alice",
    invitedUserEmail := "bob@example.com", permission := Perm.READ,
    status := InvStatus.PENDING, invitedUserId := none, expiresAt := some 1000 }

def c5db : DB := { invitations := [c5inv], members := [], recipes := [] }

/-- C5 counterexample: accept does NOT require `expiresAt > now`.  At the
boundary `now = expiresAt = 1000` the guard `expiresAt < now` is false, so
the acceptance goes through — including the membership write — even though
`expiresAt > now` fails.  The guard the code enforces is `expiresAt ≥ now`. -/
theorem c5_boundary_accept_succeeds :
    c5inv.expiresAt = some 1000
  ∧ ¬ (1000 : Nat) > 1000
  ∧ (invitationPATCH c5db bobU "i5" InvAction.accept 1000).1 =
      Response.okInv (acceptPayload bobU c5inv)
  ∧ ({ bookId := "b5", userId := "bob", permission := Perm.READ } : Membership) ∈
      (invitationPATCH c5db bobU "i5" InvAction.accept 1000).2.members := by
  refine ⟨rfl, by omega, by decide, by decide⟩

/-- C5 amended: the expiry guard is `expiresAt ≥ now` rather than strict
`expiresAt > now`.  For every PENDING invitation whose `expiresAt` is
strictly in the past, an authorized accept or decline (or revoke) is
rejected with the distinct 400 "Invitation has expired" error — not the
generic "no longer pending" denial — no membership write is performed, and
the stored invitation is left unchanged. -/
theorem c5_expired_rejected (db : DB) (s : SessionUser) (invId : String) (act : InvAction)
    (now : Nat) (inv : Invitation) (t : Nat)
    (hl : invLookup db invId = LookupResult.found inv)
    (har : act = InvAction.revoke → inv.invitedById = s.userId)
    (hae : act ≠ InvAction.revoke → inv.invitedUserEmail = s.email)
    (hp : inv.status = InvStatus.PENDING)
    (hx : inv.expiresAt = some t)
    (hpast : t < now) :
    invitationPATCH db s invId act now = (Response.errorRes "Invitation has expired" 400, db)
  ∧ (Response.errorRes "Invitation has expired" 400 : Response) ≠
      Response.errorRes "Invitation is no longer pending" 400 := by
  have hexp : isExpired inv now = true := by
    simp [isExpired, hx]; omega
  have hden : actorDenied inv s act = false := by
    cases act with
    | revoke => simp [actorDenied, har rfl]
    | accept => simp [actorDenied, hae (by simp)]
    | decline => simp [actorDenied, hae (by simp)]
  refine ⟨?_, by decide⟩
  simp [invitationPATCH, hl, hden, hp, hexp]

def c5pastInv : Invitation := { c5inv with id := "i5p", expiresAt := some 10 }

def c5pastDb : DB := { invitations := [c5pastInv], members := [], recipes := [] }

/-- Witness for C5 amended: Bob's accept of a PENDING invitation that
expired at 10, attempted at time 11, is rejected with the expired error and
the store is unchanged. -/
theorem c5_expired_rejected_witness :
    invitationPATCH c5pastDb bobU "i5p" InvAction.accept 11 =
      (Response.errorRes "Invitation has expired" 400, c5pastDb) := by
  exact (c5_expired_rejected c5pastDb bobU "i5p" InvAction.accept 11 c5pastInv 10
    (by decide) (by intro h; cases h) (fun _ => rfl) rfl rfl (by omega)).1

def c7inv : Invitation :=
  { id := "i7", bookId := "b7", invitedById := "alice",
    invitedUserEmail := "bob@example.com", permission := Perm.READ,
    status := InvStatus.PENDING, invitedUserId := none, expiresAt := some 10 }

def c7db : DB := { invitations := [c7inv], members := [], recipes := [] }

/-- C7 counterexample: revoke is NOT available for every PENDING invitation.
The revoke branch passes through the same expiry guard as accept/decline, so
the inviter's revoke of a PENDING invitation whose expiry is past is
rejected with 400 "Invitation has expired" and the invitation stays PENDING
instead of becoming REVOKED. -/
theorem c7_expired_revoke_fails :
    c7inv.status = InvStatus.PENDING
  ∧ c7inv.invitedById = aliceU.userId
  ∧ invitationPATCH c7db aliceU "i7" InvAction.revoke 100 =
      (Response.errorRes "Invitation has expired" 400, c7db) := by
  refine ⟨rfl, rfl, by decide⟩

/-- C7 amended: for every PENDING invitation that is not past its expiry,
revoke by the user matching `invitedById` stores status REVOKED with no
membership side effect, while revoke by any other user fails with the 403
Unauthorized denial and the store — hence the PENDING status — is
unchanged.  (An expired PENDING invitation cannot be revoked; see the
counterexample.) -/
theorem c7_revoke (db : DB) (s : SessionUser) (invId : String) (now : Nat) (inv : Invitation)
    (hl : invLookup db invId = LookupResult.found inv)
    (hp : inv.status = InvStatus.PENDING)
    (hexp : isExpired inv now = false)
    (hw : db.invWriteFault = false) :
    (inv.invitedById = s.userId →
       invitationPATCH db s invId InvAction.revoke now =
         (Response.okInv (revokePayload inv),
          { db with invitations := updateInv db.invitations invId revokePayload })
       ∧ (invitationPATCH db s invId InvAction.revoke now).2.members = db.members)
  ∧ (inv.invitedById ≠ s.userId →
       invitationPATCH db s invId InvAction.revoke now =
         (Response.errorRes "Unauthorized" 403, db)) := by
  have hif : db.invFault = false := by
    cases hfb : db.invFault with
    | false => rfl
    | true => simp [invLookup, hfb] at hl
  have hsr : singleRow db.invitations (fun i => decide (i.id = invId)) =
      LookupResult.found inv := by
    simpa [invLookup, hif] using hl
  constructor
  · intro hme
    have hden : actorDenied inv s InvAction.revoke = false := by
      simp [actorDenied, hme]
    have hmain : invitationPATCH db s invId InvAction.revoke now =
        (Response.okInv (revokePayload inv),
         { db with invitations := updateInv db.invitations invId revokePayload }) := by
      simp [invitationPATCH, hl, hden, hp, hexp, revokeWrite, updateInvitationRow, hw, hsr]
    refine ⟨hmain, ?_⟩
    rw [hmain]
  · intro hne
    have hden : actorDenied inv s InvAction.revoke = true := by
      simp [actorDenied, hne]
    simp [invitationPATCH, hl, hden]

def c7freshInv : Invitation := { c7inv with id := "i7f", expiresAt := some 1000 }

def c7freshDb : DB := { invitations := [c7freshInv], members := [], recipes := [] }

/-- Witness for C7 amended: Alice revokes her own unexpired PENDING
invitation and it is stored as REVOKED with memberships untouched; Bob's
revoke of the same invitation is rejected with 403 and the store unchanged. -/
theorem c7_revoke_witness :
    invitationPATCH c7freshDb aliceU "i7f" InvAction.revoke 100 =
      (Response.okInv (revokePayload c7freshInv),
       { c7freshDb with invitations := updateInv c7freshDb.invitations "i7f" revokePayload })
  ∧ invitationPATCH c7freshDb bobU "i7f" InvAction.revoke 100 =
      (Response.errorRes "Unauthorized" 403, c7freshDb) := by
  have h := c7_revoke c7freshDb aliceU "i7f" 100 c7freshInv (by decide) rfl (by decide) rfl
  have h2 := c7_revoke c7freshDb bobU "i7f" 100 c7freshInv (by decide) rfl (by decide) rfl
  exact ⟨(h.1 rfl).1, h2.2 (by decide)⟩

/-- C6: duplicate-invitation conflict on create.  With the inviter's default
book resolved to `userBook.bookId`: if the `(bookId, invitedUserEmail)` pair
has a PENDING invitation, create returns the conflict error and inserts
nothing; once no PENDING invitation matches the pair — in particular after
the earlier one was DECLINED — create succeeds, and the inserted record has
status PENDING and `expiresAt = now + 7 days`. -/
theorem c6_create_duplicate_conflict (db : DB) (s : SessionUser) (email : String)
    (perm : Perm) (now : Nat) (nid : String) (userBook : Membership)
    (hmf : db.memberFault = false) (hif : db.invFault = false) (hwf : db.invWriteFault = false)
    (hbook : db.members.find?
      (fun m => decide (m.userId = s.userId ∧ m.permission = Perm.WRITE)) = some userBook) :
    (∀ ex, singleRow db.invitations (pendingDup userBook.bookId email) = LookupResult.found ex →
       invitationsPOST db s email perm now nid =
         (Response.errorRes "Invitation already sent to this user" 400, db))
  ∧ (singleRow db.invitations (pendingDup userBook.bookId email) = LookupResult.missing →
       invitationsPOST db s email perm now nid =
         (Response.okCreated (newInvitationRow nid userBook.bookId s.userId email perm now),
          { db with invitations := db.invitations ++
              [newInvitationRow nid userBook.bookId s.userId email perm now] })
       ∧ (newInvitationRow nid userBook.bookId s.userId email perm now).status =
           InvStatus.PENDING
       ∧ (newInvitationRow nid userBook.bookId s.userId email perm now).expiresAt =
           some (now + 7 * 24 * 60 * 60 * 1000)) := by
  have hbook2 : db.members.find?
      (fun m => decide (m.userId = s.userId) && decide (m.permission = Perm.WRITE)) =
      some userBook := by
    simpa using hbook
  constructor
  · intro ex hex
    simp [invitationsPOST, hmf, hbook2, hif, hex]
  · intro hnone
    refine ⟨?_, rfl, rfl⟩
    simp [invitationsPOST, hmf, hbook2, hif, hwf, hnone]

def c6pend : Invitation :=
  { id := "i6", bookId := "b6", invitedById := "alice",
    invitedUserEmail := "bob@example.com", permission := Perm.READ,
    status := InvStatus.PENDING, invitedUserId := none, expiresAt := some 100 }

def c6book : Membership := { bookId := "b6", userId := "alice", permission := Perm.WRITE }

def c6dbPend : DB := { invitations := [c6pend], members := [c6book], recipes := [] }

def c6dbDecl : DB :=
  { invitations := [{ c6pend with status := InvStatus.DECLINED }],
    members := [c6book], recipes := [] }

/-- Witness for C6: while `i6` is PENDING for `(b6, bob@example.com)`,
Alice's second invite of the same email is rejected with the conflict error
and the store is unchanged; after `i6` is DECLINED, the same create succeeds
and the new record is PENDING with expiry 7 days from `now = 0`. -/
theorem c6_create_duplicate_conflict_witness :
    invitationsPOST c6dbPend aliceU "bob@example.com" Perm.READ 0 "n6" =
      (Response.errorRes "Invitation already sent to this user" 400, c6dbPend)
  ∧ invitationsPOST c6dbDecl aliceU "bob@example.com" Perm.READ 0 "n6" =
      (Response.okCreated (newInvitationRow "n6" "b6" "alice" "bob@example.com" Perm.READ 0),
       { c6dbDecl with invitations := c6dbDecl.invitations ++
           [newInvitationRow "n6" "b6" "alice" "bob@example.com" Perm.READ 0] })
  ∧ (newInvitationRow "n6" "b6" "alice" "bob@example.com" Perm.READ 0).status =
      InvStatus.PENDING := by
  have hP := c6_create_duplicate_conflict c6dbPend aliceU "bob@example.com" Perm.READ 0 "n6"
    c6book rfl rfl rfl (by decide)
  have hD := c6_create_duplicate_conflict c6dbDecl aliceU "bob@example.com" Perm.READ 0 "n6"
    c6book rfl rfl rfl (by decide)
  exact ⟨hP.1 c6pend (by decide), (hD.2 (by decide)).1, rfl⟩

def c8db : DB :=
  { invitations := [], members := [], recipes := [{ id := "r1", bookId := "b1" }] }

/-- C8 counterexample: for a caller with no membership on the book,
`requireRecipeAccess` does distinguish a missing recipe from an existing
one: the missing id gets the 404 not-found denial while the existing id gets
a 403 no-access denial, so the guard's response reveals that the recipe
exists. -/
theorem c8_guard_distinguishes :
    requireRecipeAccess c8db "r0" "u2" Perm.READ =
      AuthResult.failure "Recipe not found" 404
  ∧ requireRecipeAccess c8db "r1" "u2" Perm.READ =
      AuthResult.failure "You don\x27t have access to this recipe" 403
  ∧ requireRecipeAccess c8db "r0" "u2" Perm.READ ≠
      requireRecipeAccess c8db "r1" "u2" Perm.READ := by
  refine ⟨by decide, by decide, by decide⟩

/-- C8 amended: the indistinguishability holds at the recipe GET endpoint,
not at `requireRecipeAccess`.  For a caller with no membership on the
relevant book, `GET /api/recipes/[id]` returns the identical 404
"Recipe not found" response whether the recipe id exists or not. -/
theorem c8_get_indistinguishable (db : DB) (u ridA ridB : String) (rcp : Recipe)
    (hA : recipeLookup db ridA = LookupResult.found rcp)
    (hmf : db.memberFault = false)
    (hnom : ∀ m ∈ db.members, ¬(m.bookId = rcp.bookId ∧ m.userId = u))
    (hB : recipeLookup db ridB = LookupResult.missing) :
    recipeGET db u ridA = Response.errorRes "Recipe not found" 404
  ∧ recipeGET db u ridB = Response.errorRes "Recipe not found" 404
  ∧ recipeGET db u ridA = recipeGET db u ridB := by
  have hfil : db.members.filter
      (fun m => decide (m.bookId = rcp.bookId) && decide (m.userId = u)) = [] :=
    List.filter_eq_nil_iff.mpr (by intro a ha; simpa using hnom a ha)
  have hml : memberLookup db rcp.bookId u = LookupResult.missing := by
    simp [memberLookup, hmf, singleRow, hfil]
  have h1 : recipeGET db u ridA = Response.errorRes "Recipe not found" 404 := by
    simp [recipeGET, hA, hml]
  have h2 : recipeGET db u ridB = Response.errorRes "Recipe not found" 404 := by
    simp [recipeGET, hB]
  exact ⟨h1, h2, h1.trans h2.symm⟩

/-- Witness for C8 amended: user `u2` holds no membership on `b1`; the GET
responses for the existing recipe `r1` and the non-existent id `r0` are the
same 404. -/
theorem c8_get_indistinguishable_witness :
    recipeGET c8db "u2" "r1" = Response.errorRes "Recipe not found" 404
  ∧ recipeGET c8db "u2" "r1" = recipeGET c8db "u2" "r0" := by
  have h := c8_get_indistinguishable c8db "u2" "r1" "r0" { id := "r1", bookId := "b1" }
    (by decide) rfl (by intro m hm; simp [c8db] at hm) (by decide)
  exact ⟨h.1, h.2.2⟩

/-- The accept path of the PATCH handler factors into a read phase (fetch
the invitation and check actor, PENDING, expiry) followed by the write phase
`acceptWrite`: whenever the guards pass against the state the read observed,
the handler's outcome is exactly the write phase applied to that state.
Under concurrency, each request's read phase may observe the store before
the other request's write phase has run. -/
theorem accept_read_write_split (db : DB) (s : SessionUser) (invId : String) (now : Nat)
    (inv : Invitation)
    (hl : invLookup db invId = LookupResult.found inv)
    (he : inv.invitedUserEmail = s.email)
    (hp : inv.status = InvStatus.PENDING)
    (hx : isExpired inv now = false) :
    invitationPATCH db s invId InvAction.accept now = acceptWrite db s invId inv := by
  simp [invitationPATCH, hl, actorDenied, he, hp, hx]

def c9inv : Invitation :=
  { id := "i9", bookId := "b9", invitedById := "alice",
    invitedUserEmail := "bob@example.com", permission := Perm.READ,
    status := InvStatus.PENDING, invitedUserId := none, expiresAt := some 100 }

def c9db : DB := { invitations := [c9inv], members := [], recipes := [] }

def c9member : Membership := { bookId := "b9", userId := "bob", permission := Perm.READ }

/-- C9: two concurrent accepts of the same PENDING invitation do NOT result
in exactly one success.  The status update is filtered only by id — not by
`status = PENDING` — so the read-check is not coupled to the write.  Under
the interleaving read, read, write, write (both read phases observe the
initial store, where the guards pass; see `accept_read_write_split`), both
calls return the accepted invitation and two identical `BookMember` rows are
inserted; neither caller receives the no-longer-pending denial. -/
theorem c9_concurrent_accepts_both_succeed :
    invitationPATCH c9db bobU "i9" InvAction.accept 1 = acceptWrite c9db bobU "i9" c9inv
  ∧ (acceptWrite c9db bobU "i9" c9inv).1 = Response.okInv (acceptPayload bobU c9inv)
  ∧ (acceptWrite (acceptWrite c9db bobU "i9" c9inv).2 bobU "i9" c9inv).1 =
      Response.okInv (acceptPayload bobU c9inv)
  ∧ (acceptWrite (acceptWrite c9db bobU "i9" c9inv).2 bobU "i9" c9inv).2.members =
      [c9member, c9member] := by
  refine ⟨by decide, by decide, by decide, by decide⟩

/-- C10: the actor check is evaluated before the PENDING and expiry checks.
For every stored invitation — whatever its status or expiry — a caller who
is not the inviter (for revoke) respectively not the email-matched invitee
(for accept/decline) receives the same 403 Unauthorized denial and the
store is unchanged. -/
theorem c10_actor_check_first (db : DB) (s : SessionUser) (invId : String) (act : InvAction)
    (now : Nat) (inv : Invitation)
    (hl : invLookup db invId = LookupResult.found inv)
    (hrev : act = InvAction.revoke → inv.invitedById ≠ s.userId)
    (hacc : act ≠ InvAction.revoke → inv.invitedUserEmail ≠ s.email) :
    invitationPATCH db s invId act now = (Response.errorRes "Unauthorized" 403, db) := by
  have hden : actorDenied inv s act = true := by
    cases act with
    | revoke => simp [actorDenied, hrev rfl]
    | accept => simp [actorDenied, hacc (by simp)]
    | decline => simp [actorDenied, hacc (by simp)]
  simp [invitationPATCH, hl, hden]

def c10inv : Invitation :=
  { id := "i10", bookId := "b10", invitedById := "alice",
    invitedUserEmail := "bob@example.com", permission := Perm.WRITE,
    status := InvStatus.ACCEPTED, invitedUserId := some "bob", expiresAt := some 10 }

def c10db : DB := { invitations := [c10inv], members := [], recipes := [] }

def carolU : SessionUser := { userId := "carol", email := "carol@example.com" }

/-- Witness for C10: on an invitation that is both non-PENDING and expired,
Carol — neither inviter nor invitee — receives the same plain 403 for
accept and for revoke, with the store untouched; the invitation's state
never shows through. -/
theorem c10_actor_check_first_witness :
    invitationPATCH c10db carolU "i10" InvAction.accept 100 =
      (Response.errorRes "Unauthorized" 403, c10db)
  ∧ invitationPATCH c10db carolU "i10" InvAction.revoke 100 =
      (Response.errorRes "Unauthorized" 403, c10db) := by
  refine ⟨?_, ?_⟩
  · exact c10_actor_check_first c10db carolU "i10" InvAction.accept 100 c10inv (by decide)
      (by intro h; cases h) (fun _ => by decide)
  · exact c10_actor_check_first c10db carolU "i10" InvAction.revoke 100 c10inv (by decide)
      (fun _ => by decide) (fun h => absurd rfl h)

end RecipeApp
